import Mathlib

/-!
Verification of the address-normalization program (src/soln.py).

The program parses postal address records from three input formats
(XML, tab-separated, and plain-text blocks), merges them and sorts
them by zip code.  This file gives a shallow embedding of the
program: Python strings are lists of characters, Python dicts of
string keys become structures with optional fields, and Python
exceptions become an `Except` monad.  The string primitives
(`strip`, `split`, `replace`, `join`, substring containment) are
modelled by structurally recursive functions with Python semantics.
-/

namespace AddrProg

/-- A Python string, modelled as its list of characters (code points). -/
abbrev PyStr := List Char

/-- Build a `PyStr` from a Lean string literal. -/
def pstr (s : String) : PyStr := s.data

/-- Remove leading whitespace (the front half of Python `str.strip()`). -/
def dropStartWs (s : PyStr) : PyStr := s.dropWhile Char.isWhitespace

/-- Remove trailing whitespace (the back half of Python `str.strip()`). -/
def dropEndWs (s : PyStr) : PyStr := (s.reverse.dropWhile Char.isWhitespace).reverse

/-- Python `s.strip()`: remove leading and trailing whitespace. -/
def pyStrip (s : PyStr) : PyStr := dropEndWs (dropStartWs s)

/-- Worker for Python `s.split(sep)` with non-empty `sep`.  Scans the
string left to right; `skip` counts separator characters still to be
consumed after a match, and `acc` holds the current chunk reversed. -/
def splitGo (sep : PyStr) : PyStr → Nat → PyStr → List PyStr
  | [], _, acc => [acc.reverse]
  | _ :: rest, skip+1, acc => splitGo sep rest skip acc
  | c :: rest, 0, acc =>
    if sep.isPrefixOf (c :: rest) then
      acc.reverse :: splitGo sep rest (sep.length - 1) []
    else
      splitGo sep rest 0 (c :: acc)

/-- Python `s.split(sep)`: split on every non-overlapping occurrence of
the non-empty separator, keeping empty chunks (`"".split(sep) = [""]`).
The program never splits on an empty separator. -/
def pySplit (s sep : PyStr) : List PyStr :=
  match sep with
  | [] => [s]
  | _ :: _ => splitGo sep s 0 []

/-- Python `sep.join(parts)`. -/
def pyJoin (sep : PyStr) : List PyStr → PyStr
  | [] => []
  | [p] => p
  | p :: q :: rest => p ++ sep ++ pyJoin sep (q :: rest)

/-- Python `s.replace(old, new)` for non-empty `old`, which equals
`new.join(s.split(old))`. -/
def pyReplace (s old new : PyStr) : PyStr := pyJoin new (pySplit s old)

/-- Python `sub in s`: substring containment. -/
def pyContains (sub : PyStr) : PyStr → Bool
  | [] => sub.isPrefixOf []
  | c :: rest => sub.isPrefixOf (c :: rest) || pyContains sub rest

/-- Lexicographic comparison of Python strings by code point
(the order behind Python `<=` on `str`). -/
def pyStrLe : PyStr → PyStr → Bool
  | [], _ => true
  | _ :: _, [] => false
  | a :: as, b :: bs =>
    if a < b then true
    else if b < a then false
    else pyStrLe as bs

/-- The result of running a body over each element of a list in order,
stopping at the first raised exception — the effect of the accumulating
`for` loops in the parsers. -/
def exMapM {ε α β : Type} (f : α → Except ε β) : List α → Except ε (List β)
  | [] => .ok []
  | a :: l => do
    let b ← f a
    let bs ← exMapM f l
    pure (b :: bs)

/-- The Python exceptions the parsers can raise. -/
inductive PyErr where
  | attributeError
  | keyError (key : String)
  | indexError
deriving DecidableEq

instance exceptDecEq {ε α : Type} [DecidableEq ε] [DecidableEq α] : DecidableEq (Except ε α)
  | .ok a, .ok b =>
    if h : a = b then .isTrue (congrArg Except.ok h)
    else .isFalse (fun hh => h (Except.ok.inj hh))
  | .error a, .error b =>
    if h : a = b then .isTrue (congrArg Except.error h)
    else .isFalse (fun hh => h (Except.error.inj hh))
  | .ok _, .error _ => .isFalse (fun hh => Except.noConfusion hh)
  | .error _, .ok _ => .isFalse (fun hh => Except.noConfusion hh)

/-- A canonical address record: the Python dict built by a parser.
`none` means the key is absent from the dict. -/
structure AddressRecord where
  name : Option PyStr := none
  organization : Option PyStr := none
  street : Option PyStr := none
  county : Option PyStr := none
  city : Option PyStr := none
  state : Option PyStr := none
  zip : Option PyStr := none
  country : Option PyStr := none
deriving DecidableEq

/-- One ENT element of the XML input.  Each field models
`ent.find(TAG)`: `none` means no such child exists, `some t` a child
whose `.text` attribute is `t` (`some none`: a child with `None` text,
as for an empty element). -/
structure Ent where
  NAME : Option (Option PyStr) := none
  COMPANY : Option (Option PyStr) := none
  STREET : Option (Option PyStr) := none
  STREET_2 : Option (Option PyStr) := none
  STREET_3 : Option (Option PyStr) := none
  CITY : Option (Option PyStr) := none
  STATE : Option (Option PyStr) := none
  POSTAL_CODE : Option (Option PyStr) := none
  COUNTRY : Option (Option PyStr) := none
deriving DecidableEq

/-- Model of `ent.find(tag).text`: AttributeError when the child is absent
(attribute access on `None`). -/
def childText : Option (Option PyStr) → Except PyErr (Option PyStr)
  | none => .error .attributeError
  | some t => .ok t

/-- Model of `ent.find(tag).text.strip()`: AttributeError when the child is
absent or its text is `None`. -/
def childTextStrip : Option (Option PyStr) → Except PyErr PyStr
  | none => .error .attributeError
  | some none => .error .attributeError
  | some (some t) => .ok (pyStrip t)

/-- Model of the conditional strip of an element text (src/soln.py lines 15-16). -/
def stripIfTruthy (t : Option PyStr) : PyStr :=
  match t with
  | some s => if s = [] then [] else pyStrip s
  | none => []

/-- One element of the STREET_i comprehension (lines 25-26): an absent
child is filtered out, a present child with `None` text raises, and a
present child is kept exactly when its stripped text is non-empty. -/
def optStreetLine : Option (Option PyStr) → Except PyErr (Option PyStr)
  | none => .ok none
  | some none => .error .attributeError
  | some (some t) => .ok (if pyStrip t = [] then none else some (pyStrip t))

/-- The body of the per-ENT loop of `parse_xml` (lines 14-40),
with the source evaluation order of the child lookups preserved. -/
def parseEnt (ent : Ent) : Except PyErr AddressRecord := do
  let nameT ← childText ent.NAME
  let name := stripIfTruthy nameT
  let companyT ← childText ent.COMPANY
  let company := stripIfTruthy companyT
  let s2 ← optStreetLine ent.STREET_2
  let s3 ← optStreetLine ent.STREET_3
  let streets : List PyStr := [s2, s3].filterMap id
  let st ← childTextStrip ent.STREET
  let fullStreet := pyJoin (pstr " ") (st :: streets)
  let city ← childTextStrip ent.CITY
  let state ← childTextStrip ent.STATE
  let postal ← childTextStrip ent.POSTAL_CODE
  let zipv := (pySplit postal (pstr " -")).headD []
  let countryT ← childText ent.COUNTRY
  let country : Option PyStr :=
    match countryT with
    | some s => if s = [] then none else some (pyStrip s)
    | none => none
  pure {
    name := if name ≠ [] then some (pyStrip name) else none
    organization := if name ≠ [] then none else if company ≠ [] then some company else none
    street := some fullStreet
    city := some city
    state := some state
    zip := some zipv
    country := match country with
      | some c => if c = [] then none else some c
      | none => none }

/-- The function parse_xml (lines 8-41), over the list of ENT elements found in
the document. -/
def parse_xml (ents : List Ent) : Except PyErr (List AddressRecord) :=
  exMapM parseEnt ents

/-- A row produced by `csv.DictReader`: an association list from column
names to cell values. -/
abbrev Row := List (String × PyStr)

/-- Model of row subscripting: KeyError when the column is missing. -/
def rowItem (r : Row) (k : String) : Except PyErr PyStr :=
  match List.lookup k r with
  | some v => .ok v
  | none => .error (.keyError k)

/-- The identity decision of `parse_tsv` (lines 50-55): the pair of
the `name` and `organization` values of the record being built.  When
the `organization` cell is not the literal `N/A` it is stored verbatim;
otherwise the name is joined from the non-empty trimmed name parts. -/
def tsvIdentity (r : Row) (org : PyStr) : Except PyErr (Option PyStr × Option PyStr) :=
  if org ≠ pstr "N/A" then
    pure (none, some org)
  else do
    let f ← rowItem r "first"
    let m ← rowItem r "middle"
    let l ← rowItem r "last"
    let nameParts := [pyStrip f, pyStrip m, pyStrip l]
    pure (some (pyJoin (pstr " ") (nameParts.filter (!·.isEmpty))), none)

/-- The county decision of `parse_tsv` (line 58): the `county` value of
the record being built.  `row.get` is `None` for a missing column, which
is not equal to the empty string, so a missing column raises KeyError. -/
def tsvCounty (r : Row) : Except PyErr (Option PyStr) :=
  if List.lookup "county" r ≠ some [] then do
    let c ← rowItem r "county"
    pure (some (pyStrip c))
  else
    pure none

/-- The body of the per-row loop of `parse_tsv` (lines 49-64),
with the source evaluation order of the column lookups preserved. -/
def parseRow (r : Row) : Except PyErr AddressRecord := do
  let org ← rowItem r "organization"
  let idFields ← tsvIdentity r org
  let addr ← rowItem r "address"
  let countyField ← tsvCounty r
  let city ← rowItem r "city"
  let state ← rowItem r "state"
  let z4 ← rowItem r "zip4"
  let z ← rowItem r "zip"
  let zipv := if z4 ≠ [] then pyStrip z ++ pstr "-" ++ pyStrip z4 else pyStrip z
  pure {
    name := idFields.1
    organization := idFields.2
    street := some (pyStrip addr)
    county := countyField
    city := some (pyStrip city)
    state := some (pyStrip state)
    zip := some zipv }

/-- The function parse_tsv (lines 43-65), over the rows the DictReader yields. -/
def parse_tsv (rows : List Row) : Except PyErr (List AddressRecord) :=
  exMapM parseRow rows

/-- Model of list subscripting: IndexError when out of range. -/
def pyIndex (l : List PyStr) (i : Nat) : Except PyErr PyStr :=
  match l.get? i with
  | some x => .ok x
  | none => .error .indexError

/-- The county decision of `parse_txt` (lines 82-86): the `county`
value of the record being built, paired with the chosen city/state/zip
line already split on commas. -/
def txtCountyCsz (lines : List PyStr) (line2 : PyStr) :
    Except PyErr (Option PyStr × List PyStr) :=
  if pyContains (pstr "COUNTY") line2 then do
    let line3 ← pyIndex lines 3
    pure (some (pyStrip (pyReplace line2 (pstr "COUNTY") [])), pySplit line3 (pstr ","))
  else
    pure (none, pySplit line2 (pstr ","))

/-- The body of the per-block loop of `parse_txt` (lines 72-92). -/
def parseBlock (block : PyStr) : Except PyErr AddressRecord := do
  let lines := pySplit block (pstr "\n")
  let nameLine ← pyIndex lines 0
  let nameField :=
    if pyContains (pstr ",") nameLine then pyReplace nameLine (pstr ",") []
    else pyStrip nameLine
  let streetLine ← pyIndex lines 1
  let line2 ← pyIndex lines 2
  let countyCsz ← txtCountyCsz lines line2
  let cityPart ← pyIndex countyCsz.2 0
  let part1 ← pyIndex countyCsz.2 1
  let stateZip := pySplit (pyStrip part1) (pstr " ")
  let statePart ← pyIndex stateZip 0
  let zipPart ← pyIndex stateZip 1
  pure {
    name := some nameField
    street := some (pyStrip streetLine)
    county := countyCsz.1
    city := some (pyStrip cityPart)
    state := some (pyStrip statePart)
    zip := some (pyStrip zipPart) }

/-- The function parse_txt (lines 67-93): strip the whole content, split it on
blank lines, and parse each block. -/
def parse_txt (content : PyStr) : Except PyErr (List AddressRecord) :=
  exMapM parseBlock (pySplit (pyStrip content) (pstr "\n\n"))

/-- One command-line input, already routed by its extension
(lines 107-118): an unsupported extension contributes no records. -/
inductive InputFile where
  | xmlFile (ents : List Ent)
  | tsvFile (rows : List Row)
  | txtFile (content : PyStr)
  | otherFile

/-- Dispatch of one input file to its parser (lines 109-118). -/
def parseFile : InputFile → Except PyErr (List AddressRecord)
  | .xmlFile ents => parse_xml ents
  | .tsvFile rows => parse_tsv rows
  | .txtFile content => parse_txt content
  | .otherFile => .ok []

/-- The accumulated record list right before the sort (lines 106-121):
records of all files concatenated in argument order; the first parser
failure aborts the whole run. -/
def collectRecords (files : List InputFile) : Except PyErr (List AddressRecord) :=
  (exMapM parseFile files).map List.flatten

/-- Model of the dict get with the default string 99999: the sort key (line 124). -/
def sortKey (r : AddressRecord) : PyStr := r.zip.getD (pstr "99999")

/-- The comparison `list.sort` uses on line 124. -/
def recLe (a b : AddressRecord) : Bool := pyStrLe (sortKey a) (sortKey b)

/-- The final output sequence (lines 123-124): Python `list.sort` with
a key function is a stable sort, modelled by a stable merge sort. -/
def mainRecords (files : List InputFile) : Except PyErr (List AddressRecord) :=
  (collectRecords files).map (fun rs => rs.mergeSort recLe)

/-- Everything before the first occurrence of `sep`, the whole string
when `sep` does not occur.  This follows the words of the spec for the
markup postal-code cleanup: truncate at the first occurrence of the
space-hyphen sequence, dropping everything from that sequence onward. -/
def beforeFirst : PyStr → PyStr → PyStr
  | [], _ => []
  | c :: rest, sep => if sep.isPrefixOf (c :: rest) then [] else c :: beforeFirst rest sep

/-! ### Concrete inputs used by witnesses and counterexamples -/

/-- A markup entity whose NAME text is empty and whose COMPANY text is
whitespace-only, with all other required children well-formed. -/
def entNoIdentity : Ent :=
  { NAME := some (some (pstr ""))
    COMPANY := some (some (pstr " "))
    STREET := some (some (pstr "9 Pine Rd"))
    CITY := some (some (pstr "Plano"))
    STATE := some (some (pstr "TX"))
    POSTAL_CODE := some (some (pstr "75023"))
    COUNTRY := some none }

/-- The record the program builds for `entNoIdentity`: no identity key. -/
def entNoIdentityRec : AddressRecord :=
  { street := some (pstr "9 Pine Rd")
    city := some (pstr "Plano")
    state := some (pstr "TX")
    zip := some (pstr "75023") }

/-- A markup entity that is well-formed except that it has no COUNTRY
child at all. -/
def entNoCountry : Ent :=
  { NAME := some (some (pstr "John Doe"))
    COMPANY := some (some (pstr ""))
    STREET := some (some (pstr "12 Oak Ave"))
    CITY := some (some (pstr "Plainfield"))
    STATE := some (some (pstr "NJ"))
    POSTAL_CODE := some (some (pstr "07060"))
    COUNTRY := none }

/-- A markup entity with a ZIP+4-style postal code text. -/
def entZipPlus : Ent :=
  { NAME := some (some (pstr "Bo Ax"))
    COMPANY := some (some (pstr ""))
    STREET := some (some (pstr "1 Main"))
    CITY := some (some (pstr "Rye"))
    STATE := some (some (pstr "NY"))
    POSTAL_CODE := some (some (pstr "12345 -6789"))
    COUNTRY := some none }

/-- A tabular row whose organization cell carries surrounding spaces. -/
def rowUntrimmedOrg : Row :=
  [("organization", pstr " Acme Corp "), ("address", pstr "1 Elm St"),
   ("county", pstr ""), ("city", pstr "Reno"), ("state", pstr "NV"),
   ("zip", pstr "89501"), ("zip4", pstr "")]

/-- The record the program builds for `rowUntrimmedOrg`. -/
def rowUntrimmedOrgRec : AddressRecord :=
  { organization := some (pstr " Acme Corp ")
    street := some (pstr "1 Elm St")
    city := some (pstr "Reno")
    state := some (pstr "NV")
    zip := some (pstr "89501") }

/-- The spec example row: `zip = 94105`, `zip4 = 1234`. -/
def row94105 : Row :=
  [("organization", pstr "N/A"), ("first", pstr "Ann"), ("middle", pstr ""),
   ("last", pstr "Lee"), ("address", pstr "5 Elm St"), ("county", pstr "Washoe"),
   ("city", pstr "SF"), ("state", pstr "CA"), ("zip", pstr "94105"),
   ("zip4", pstr "1234")]

/-- A tabular row with no `county` column at all. -/
def rowNoCounty : Row :=
  [("organization", pstr "Acme"), ("first", pstr ""), ("middle", pstr ""),
   ("last", pstr ""), ("address", pstr "2 Oak St"), ("city", pstr "Reno"),
   ("state", pstr "NV"), ("zip", pstr "89501"), ("zip4", pstr "")]

/-- A tabular row with a non-empty `county` column. -/
def rowWithCounty : Row :=
  [("organization", pstr "Acme"), ("first", pstr ""), ("middle", pstr ""),
   ("last", pstr ""), ("address", pstr "2 Oak St"), ("county", pstr "Washoe"),
   ("city", pstr "Reno"), ("state", pstr "NV"), ("zip", pstr "89501"),
   ("zip4", pstr "")]

/-- The record the program builds for `rowWithCounty`. -/
def rowWithCountyRec : AddressRecord :=
  { organization := some (pstr "Acme")
    street := some (pstr "2 Oak St")
    county := some (pstr "Washoe")
    city := some (pstr "Reno")
    state := some (pstr "NV")
    zip := some (pstr "89501") }

/-- A block-text file with one well-formed block (single spaces). -/
def txtOneRecord : PyStr := pstr "Jane Doe\n123 Main St\nAnytown, TX 77555"

/-- The record the program builds for `txtOneRecord`. -/
def txtOneRecordRec : AddressRecord :=
  { name := some (pstr "Jane Doe")
    street := some (pstr "123 Main St")
    city := some (pstr "Anytown")
    state := some (pstr "TX")
    zip := some (pstr "77555") }

/-- A second block-text file, with a smaller zip than `txtOneRecord`. -/
def txtSecondRecord : PyStr := pstr "Al Poe\n9 Oak Dr\nSparks, NV 10001"

/-- The record the program builds for `txtSecondRecord`. -/
def txtSecondRecordRec : AddressRecord :=
  { name := some (pstr "Al Poe")
    street := some (pstr "9 Oak Dr")
    city := some (pstr "Sparks")
    state := some (pstr "NV")
    zip := some (pstr "10001") }

/-- A block-text file whose city/state/zip line has two spaces between
the state and the zip token. -/
def cexDoubleSpace : PyStr := pstr "Jane Doe\n123 Main St\nAnytown, TX  77555"

/-- The record the program builds for `cexDoubleSpace`: the zip is the
empty string, not the token after the run of spaces. -/
def cexDoubleSpaceRec : AddressRecord :=
  { name := some (pstr "Jane Doe")
    street := some (pstr "123 Main St")
    city := some (pstr "Anytown")
    state := some (pstr "TX")
    zip := some [] }

/-! ### Basic lemmas about the `Except` embedding -/

theorem exceptBind_ok {ε α β : Type} (x : Except ε α) (f : α → Except ε β) (c : β) :
    (x >>= f) = .ok c ↔ ∃ a, x = .ok a ∧ f a = .ok c := by
  cases x <;> simp [Bind.bind, Except.bind]

theorem exceptBind_ok_eval {ε α β : Type} (a : α) (f : α → Except ε β) :
    ((Except.ok a : Except ε α) >>= f) = f a := rfl

theorem exceptPure_eval {ε α : Type} (a : α) : (pure a : Except ε α) = .ok a := rfl

theorem exceptPure_ok {ε α : Type} (a b : α) :
    (pure a : Except ε α) = .ok b ↔ a = b := by
  constructor
  · intro h; exact Except.ok.inj h
  · intro h; rw [h]; rfl

theorem exMapM_ok_mem {ε α β : Type} (f : α → Except ε β) :
    ∀ (l : List α) (res : List β), exMapM f l = .ok res →
      ∀ b ∈ res, ∃ a, a ∈ l ∧ f a = .ok b := by
  intro l
  induction l with
  | nil =>
    intro res h b hb
    simp only [exMapM, exceptPure_ok] at h
    injection h with h
    subst h
    cases hb
  | cons x xs ih =>
    intro res h b hb
    simp only [exMapM] at h
    rw [exceptBind_ok] at h
    obtain ⟨y, hy, h⟩ := h
    rw [exceptBind_ok] at h
    obtain ⟨ys, hys, h⟩ := h
    rw [exceptPure_ok] at h
    subst h
    rcases hb with _ | hb
    · exact ⟨x, List.mem_cons_self x xs, hy⟩
    · obtain ⟨a, ha, hfa⟩ := ih ys hys b (by assumption)
      exact ⟨a, List.mem_cons_of_mem x ha, hfa⟩

theorem exMapM_singleton {ε α β : Type} (f : α → Except ε β) (a : α) (b : β)
    (h : f a = .ok b) : exMapM f [a] = .ok [b] := by
  simp [exMapM, h, Bind.bind, Except.bind]
  rfl

theorem exMapM_cons_error {ε α β : Type} (f : α → Except ε β) (a : α) (l : List α) (e : ε)
    (h : f a = .error e) : exMapM f (a :: l) = .error e := by
  simp [exMapM, h, Bind.bind, Except.bind]

theorem exceptMap_ok {ε α β : Type} (x : Except ε α) (f : α → β) (b : β) :
    x.map f = .ok b ↔ ∃ a, x = .ok a ∧ f a = b := by
  cases x <;> simp [Except.map]

/-! ### Lemmas about whitespace stripping -/

theorem head_dropWhile_not (p : Char → Bool) :
    ∀ (l : PyStr) (c : Char), (l.dropWhile p).head? = some c → p c = false := by
  intro l
  induction l with
  | nil => intro c h; simp [List.dropWhile] at h
  | cons a rest ih =>
    intro c h
    by_cases ha : p a
    · rw [List.dropWhile_cons_of_pos ha] at h
      exact ih c h
    · rw [List.dropWhile_cons_of_neg ha] at h
      simp at h
      subst h
      exact Bool.eq_false_iff.mpr ha

theorem dropWhile_eq_self_of (p : Char → Bool) (l : PyStr)
    (h : ∀ c, l.head? = some c → p c = false) : l.dropWhile p = l := by
  cases l with
  | nil => rfl
  | cons a rest =>
    have := h a (by simp)
    rw [List.dropWhile_cons_of_neg (by simp [this])]

theorem getLast_dropEndWs_not (l : PyStr) (c : Char)
    (h : (dropEndWs l).getLast? = some c) : c.isWhitespace = false := by
  unfold dropEndWs at h
  rw [List.getLast?_reverse] at h
  exact head_dropWhile_not _ _ c h

theorem dropEndWs_eq_self (l : PyStr)
    (h : ∀ c, l.getLast? = some c → c.isWhitespace = false) : dropEndWs l = l := by
  unfold dropEndWs
  rw [dropWhile_eq_self_of _ _ (fun c hc => h c (by rwa [List.head?_reverse] at hc))]
  exact List.reverse_reverse l

theorem head_dropEndWs (l : PyStr) (c : Char)
    (h : (dropEndWs l).head? = some c) : l.head? = some c := by
  have hpre : dropEndWs l <+: l := by
    unfold dropEndWs
    have hsuf : l.reverse.dropWhile Char.isWhitespace <:+ l.reverse :=
      List.dropWhile_suffix _
    have := List.reverse_prefix.mpr hsuf
    simpa using this
  obtain ⟨t, ht⟩ := hpre
  cases hd : dropEndWs l with
  | nil => rw [hd] at h; simp at h
  | cons x xs =>
    rw [hd] at h
    simp at h
    rw [← ht, hd]
    simp [h]

theorem pyStrip_head (s : PyStr) (c : Char)
    (h : (pyStrip s).head? = some c) : c.isWhitespace = false := by
  unfold pyStrip at h
  have := head_dropEndWs _ _ h
  exact head_dropWhile_not _ _ c this

theorem pyStrip_getLast (s : PyStr) (c : Char)
    (h : (pyStrip s).getLast? = some c) : c.isWhitespace = false :=
  getLast_dropEndWs_not _ c h

theorem pyStrip_eq_self (s : PyStr)
    (h1 : ∀ c, s.head? = some c → c.isWhitespace = false)
    (h2 : ∀ c, s.getLast? = some c → c.isWhitespace = false) :
    pyStrip s = s := by
  unfold pyStrip dropStartWs
  rw [dropWhile_eq_self_of _ _ h1]
  exact dropEndWs_eq_self s h2

/-- Stripping is idempotent. -/
theorem pyStrip_idem (s : PyStr) : pyStrip (pyStrip s) = pyStrip s :=
  pyStrip_eq_self _ (pyStrip_head s) (pyStrip_getLast s)

theorem trimmed_head (s : PyStr) (hs : pyStrip s = s) (c : Char)
    (h : s.head? = some c) : c.isWhitespace = false :=
  pyStrip_head s c (by rwa [hs])

theorem trimmed_getLast (s : PyStr) (hs : pyStrip s = s) (c : Char)
    (h : s.getLast? = some c) : c.isWhitespace = false :=
  pyStrip_getLast s c (by rwa [hs])

/-! ### Lemmas about `pyJoin` -/

theorem pyJoin_head (parts : List PyStr) (hne : ∀ p ∈ parts, p ≠ []) (c : Char)
    (h : (pyJoin (pstr " ") parts).head? = some c) :
    ∃ p, p ∈ parts ∧ p.head? = some c := by
  match parts with
  | [] => simp [pyJoin] at h
  | [p] => exact ⟨p, by simp, h⟩
  | p :: q :: rest =>
    have hp : p ≠ [] := hne p (by simp)
    refine ⟨p, by simp, ?_⟩
    rw [pyJoin] at h
    cases p with
    | nil => exact absurd rfl hp
    | cons x xs => simpa using h

theorem pyJoin_getLast (parts : List PyStr) (hne : ∀ p ∈ parts, p ≠ []) (c : Char)
    (h : (pyJoin (pstr " ") parts).getLast? = some c) :
    ∃ p, p ∈ parts ∧ p.getLast? = some c := by
  match parts with
  | [] => simp [pyJoin] at h
  | [p] => exact ⟨p, by simp, h⟩
  | p :: q :: rest =>
    have hq : pyJoin (pstr " ") (q :: rest) ≠ [] := by
      have hqne : q ≠ [] := hne q (by simp)
      match rest with
      | [] => simpa [pyJoin] using hqne
      | r :: rs =>
        rw [pyJoin]
        cases q with
        | nil => exact absurd rfl hqne
        | cons y ys => simp
    rw [pyJoin, List.append_assoc, List.getLast?_append, List.getLast?_append] at h
    cases hg : (pyJoin (pstr " ") (q :: rest)).getLast? with
    | none => exact absurd (List.getLast?_eq_none_iff.mp hg) hq
    | some d =>
      rw [hg] at h
      simp at h
      subst h
      obtain ⟨p2, hp2, hl⟩ :=
        pyJoin_getLast (q :: rest) (fun r hr => hne r (List.mem_cons_of_mem p hr)) d hg
      exact ⟨p2, List.mem_cons_of_mem p hp2, hl⟩

theorem pyJoin_trimmed (parts : List PyStr) (h : ∀ p ∈ parts, p ≠ [] ∧ pyStrip p = p) :
    pyStrip (pyJoin (pstr " ") parts) = pyJoin (pstr " ") parts := by
  apply pyStrip_eq_self
  · intro c hc
    obtain ⟨p, hp, hpc⟩ := pyJoin_head parts (fun p hp => (h p hp).1) c hc
    exact trimmed_head p (h p hp).2 c hpc
  · intro c hc
    obtain ⟨p, hp, hpc⟩ := pyJoin_getLast parts (fun p hp => (h p hp).1) c hc
    exact trimmed_getLast p (h p hp).2 c hpc

/-- Concatenating two trimmed strings around a non-whitespace character
yields a trimmed string (the shape of a ZIP+4 value). -/
theorem pyStrip_append_middle (a b : PyStr) (m : Char) (hm : m.isWhitespace = false)
    (ha : pyStrip a = a) (hb : pyStrip b = b) :
    pyStrip (a ++ m :: b) = a ++ m :: b := by
  apply pyStrip_eq_self
  · intro c hc
    cases a with
    | nil =>
      simp at hc
      subst hc
      exact hm
    | cons x xs =>
      simp at hc
      rw [← hc]
      exact trimmed_head _ ha x (by simp)
  · intro c hc
    rw [List.getLast?_append] at hc
    cases b with
    | nil =>
      simp at hc
      subst hc
      exact hm
    | cons y ys =>
      have : (m :: y :: ys).getLast? = (y :: ys).getLast? := List.getLast?_cons_cons
      rw [this] at hc
      cases hg : (y :: ys).getLast? with
      | none => simp at hg
      | some d =>
        rw [hg] at hc
        simp at hc
        subst hc
        exact trimmed_getLast _ hb d hg

/-! ### The lexicographic order on Python strings -/

theorem pyStrLe_refl : ∀ s, pyStrLe s s = true
  | [] => rfl
  | c :: rest => by
    unfold pyStrLe
    rw [if_neg (lt_irrefl c), if_neg (lt_irrefl c)]
    exact pyStrLe_refl rest

theorem pyStrLe_total : ∀ a b, (pyStrLe a b || pyStrLe b a) = true
  | [], b => by simp [pyStrLe]
  | a :: as, [] => by simp [pyStrLe]
  | a :: as, b :: bs => by
    unfold pyStrLe
    rcases lt_trichotomy a b with h | h | h
    · rw [if_pos h]; simp
    · subst h
      rw [if_neg (lt_irrefl a), if_neg (lt_irrefl a), if_neg (lt_irrefl a),
        if_neg (lt_irrefl a)]
      exact pyStrLe_total as bs
    · rw [if_neg (asymm h), if_pos h, if_pos h]; simp

theorem pyStrLe_trans : ∀ a b c, pyStrLe a b = true → pyStrLe b c = true →
    pyStrLe a c = true
  | [], _, _, _, _ => rfl
  | a :: as, [], c, h1, _ => by simp [pyStrLe] at h1
  | a :: as, b :: bs, [], _, h2 => by simp [pyStrLe] at h2
  | a :: as, b :: bs, c :: cs, h1, h2 => by
    unfold pyStrLe at h1 h2 ⊢
    rcases lt_trichotomy a b with hab | hab | hab
    · rcases lt_trichotomy b c with hbc | hbc | hbc
      · rw [if_pos (lt_trans hab hbc)]
      · subst hbc; rw [if_pos hab]
      · rw [if_neg (asymm hbc), if_pos hbc] at h2; simp at h2
    · subst hab
      rw [if_neg (lt_irrefl a), if_neg (lt_irrefl a)] at h1
      rcases lt_trichotomy a c with hac | hac | hac
      · rw [if_pos hac]
      · subst hac
        rw [if_neg (lt_irrefl a), if_neg (lt_irrefl a)]
        rw [if_neg (lt_irrefl a), if_neg (lt_irrefl a)] at h2
        exact pyStrLe_trans as bs cs h1 h2
      · rw [if_neg (asymm hac), if_pos hac] at h2; simp at h2
    · rw [if_neg (asymm hab), if_pos hab] at h1; simp at h1

theorem recLe_trans : ∀ (a b c : AddressRecord), recLe a b → recLe b c → recLe a c :=
  fun a b c h1 h2 => pyStrLe_trans _ _ _ h1 h2

theorem recLe_total : ∀ (a b : AddressRecord), recLe a b || recLe b a :=
  fun a b => pyStrLe_total _ _

/-! ### The head of a split: truncation at the first occurrence -/

theorem splitGo_head (sep : PyStr) :
    ∀ (s acc : PyStr), (splitGo sep s 0 acc).headD [] = acc.reverse ++ beforeFirst s sep := by
  intro s
  induction s with
  | nil => intro acc; simp [splitGo, beforeFirst]
  | cons c rest ih =>
    intro acc
    rw [splitGo, beforeFirst]
    by_cases hp : sep.isPrefixOf (c :: rest)
    · rw [if_pos hp, if_pos hp]
      simp
    · rw [if_neg hp, if_neg hp, ih (c :: acc)]
      simp

theorem pySplit_head (s sep : PyStr) (hsep : sep ≠ []) :
    (pySplit s sep).headD [] = beforeFirst s sep := by
  match sep with
  | [] => exact absurd rfl hsep
  | c0 :: sep2 =>
    rw [pySplit]
    rw [splitGo_head (c0 :: sep2) s []]
    simp

/-! ### Stability of the final sort -/

theorem mergeSort_filter_key (l : List AddressRecord) (z : PyStr) :
    (l.mergeSort recLe).filter (fun r => sortKey r == z) =
      l.filter (fun r => sortKey r == z) := by
  set p : AddressRecord → Bool := fun r => sortKey r == z with hp
  have hmem : ∀ r ∈ l.filter p, sortKey r = z := by
    intro r hr
    rw [List.mem_filter] at hr
    have := hr.2
    rw [hp] at this
    simpa using this
  have hpw : (l.filter p).Pairwise (fun a b => recLe a b) := by
    apply List.pairwise_of_forall_mem_list
    intro a ha b hb
    show recLe a b = true
    rw [recLe, hmem a ha, hmem b hb]
    exact pyStrLe_refl z
  have hsub : List.Sublist (l.filter p) (l.mergeSort recLe) :=
    List.sublist_mergeSort recLe_trans recLe_total hpw (List.filter_sublist l)
  have hperm : List.Perm ((l.mergeSort recLe).filter p) (l.filter p) :=
    (List.mergeSort_perm l recLe).filter p
  have hff : (l.filter p).filter p = l.filter p := by
    rw [List.filter_eq_self]
    intro a ha
    exact (List.mem_filter.mp ha).2
  have hsubf : List.Sublist (l.filter p) ((l.mergeSort recLe).filter p) := by
    have := hsub.filter p
    rwa [hff] at this
  exact (hsubf.eq_of_length (by rw [hperm.length_eq])).symm

/-! ### Shapes of the records each parser can produce -/

theorem childTextStrip_trimmed (x : Option (Option PyStr)) (v : PyStr)
    (h : childTextStrip x = .ok v) : pyStrip v = v := by
  match x with
  | none => simp [childTextStrip] at h
  | some none => simp [childTextStrip] at h
  | some (some t) =>
    simp [childTextStrip] at h
    rw [← h]
    exact pyStrip_idem t

theorem stripIfTruthy_trimmed (t : Option PyStr) :
    pyStrip (stripIfTruthy t) = stripIfTruthy t := by
  match t with
  | none => rfl
  | some s =>
    rw [stripIfTruthy]
    by_cases hs : s = []
    · rw [if_pos hs]; rfl
    · rw [if_neg hs]; exact pyStrip_idem s

theorem tsvIdentity_shape (r : Row) (org : PyStr) (idF : Option PyStr × Option PyStr)
    (h : tsvIdentity r org = .ok idF) :
    (idF.1 = none ∧ idF.2.isSome) ∨
      ((∃ w, idF.1 = some w ∧ pyStrip w = w) ∧ idF.2 = none) := by
  rw [tsvIdentity] at h
  by_cases hOrgNA : org = pstr "N/A"
  · rw [if_neg (by simp [hOrgNA])] at h
    simp only [exceptBind_ok, exceptPure_ok] at h
    obtain ⟨f, hf, m, hm, l, hl, h⟩ := h
    right
    refine ⟨⟨_, by rw [← h], ?_⟩, by rw [← h]⟩
    apply pyJoin_trimmed
    intro p hp
    rw [List.mem_filter] at hp
    obtain ⟨hmem, hbool⟩ := hp
    refine ⟨by simpa using hbool, ?_⟩
    simp only [List.mem_cons, List.not_mem_nil, or_false] at hmem
    rcases hmem with h1 | h1 | h1
    · rw [h1]; exact pyStrip_idem _
    · rw [h1]; exact pyStrip_idem _
    · rw [h1]; exact pyStrip_idem _
  · rw [if_pos (by simp [hOrgNA])] at h
    rw [exceptPure_ok] at h
    left
    rw [← h]
    exact ⟨rfl, rfl⟩

theorem tsvCounty_shape (r : Row) (cf : Option PyStr) (h : tsvCounty r = .ok cf) :
    cf = none ∨ ∃ w, cf = some w ∧ pyStrip w = w := by
  rw [tsvCounty] at h
  by_cases hcl : List.lookup "county" r = some []
  · rw [if_neg (by simp [hcl])] at h
    rw [exceptPure_ok] at h
    left; rw [← h]
  · rw [if_pos (by simp [hcl])] at h
    simp only [exceptBind_ok, exceptPure_ok] at h
    obtain ⟨c, hc, h⟩ := h
    right
    exact ⟨pyStrip c, by rw [← h], pyStrip_idem c⟩

theorem txtCountyCsz_shape (lines : List PyStr) (line2 : PyStr)
    (cc : Option PyStr × List PyStr) (h : txtCountyCsz lines line2 = .ok cc) :
    cc.1 = none ∨ ∃ w, cc.1 = some w ∧ pyStrip w = w := by
  rw [txtCountyCsz] at h
  by_cases hc : pyContains (pstr "COUNTY") line2 = true
  · rw [if_pos hc] at h
    simp only [exceptBind_ok, exceptPure_ok] at h
    obtain ⟨line3, h3, h⟩ := h
    right
    exact ⟨_, by rw [← h], pyStrip_idem _⟩
  · rw [if_neg hc] at h
    rw [exceptPure_ok] at h
    left
    rw [← h]

/-- Every record `parseEnt` produces: at most one identity field, and
trimmed name, organization, city, state and country values; no county. -/
theorem parseEnt_shape (e : Ent) (r : AddressRecord) (h : parseEnt e = .ok r) :
    (r.name = none ∨ r.organization = none) ∧
    (∀ v, r.name = some v → pyStrip v = v) ∧
    (∀ v, r.organization = some v → pyStrip v = v) ∧
    (∀ v, r.city = some v → pyStrip v = v) ∧
    (∀ v, r.state = some v → pyStrip v = v) ∧
    (∀ v, r.country = some v → pyStrip v = v) ∧
    r.county = none := by
  simp only [parseEnt, exceptBind_ok, exceptPure_ok] at h
  obtain ⟨nameT, hN, companyT, hC, s2, h2, s3, h3, stV, hSt, cityV, hCity,
    stateV, hState, postalV, hPost, countryT, hCtry, hrec⟩ := h
  subst hrec
  refine ⟨?_, ?_, ?_, ?_, ?_, ?_, rfl⟩
  · by_cases hn : stripIfTruthy nameT = []
    · left; simp [hn]
    · right; simp [hn]
  · intro v hv
    by_cases hn : stripIfTruthy nameT = []
    · simp [hn] at hv
    · simp [hn] at hv
      rw [← hv]
      exact pyStrip_idem _
  · intro v hv
    by_cases hn : stripIfTruthy nameT = []
    · by_cases hc2 : stripIfTruthy companyT = []
      · simp [hn, hc2] at hv
      · simp [hn, hc2] at hv
        rw [← hv]
        exact stripIfTruthy_trimmed _
    · simp [hn] at hv
  · intro v hv
    simp at hv
    rw [← hv]
    exact childTextStrip_trimmed _ _ hCity
  · intro v hv
    simp at hv
    rw [← hv]
    exact childTextStrip_trimmed _ _ hState
  · intro v hv
    match countryT with
    | none => simp at hv
    | some s =>
      by_cases hs : s = []
      · simp [hs] at hv
      · by_cases hps : pyStrip s = []
        · simp [hs, hps] at hv
        · simp [hs, hps] at hv
          rw [← hv]
          exact pyStrip_idem s

/-- Every record `parseRow` produces: exactly one identity field, and
trimmed name, street, county, city, state and zip values. -/
theorem parseRow_shape (row : Row) (r : AddressRecord) (h : parseRow row = .ok r) :
    ((r.name = none ∧ r.organization.isSome) ∨ (r.name.isSome ∧ r.organization = none)) ∧
    (∀ v, r.name = some v → pyStrip v = v) ∧
    (∀ v, r.street = some v → pyStrip v = v) ∧
    (∀ v, r.county = some v → pyStrip v = v) ∧
    (∀ v, r.city = some v → pyStrip v = v) ∧
    (∀ v, r.state = some v → pyStrip v = v) ∧
    (∀ v, r.zip = some v → pyStrip v = v) := by
  simp only [parseRow, exceptBind_ok, exceptPure_ok] at h
  obtain ⟨org, hOrg, idFields, hId, addr, hAddr, countyF, hCounty, cityV, hCity,
    stateV, hState, z4, hZ4, z, hZ, hrec⟩ := h
  subst hrec
  have hIdShape := tsvIdentity_shape row org idFields hId
  have hCountyShape := tsvCounty_shape row countyF hCounty
  refine ⟨?_, ?_, ?_, ?_, ?_, ?_, ?_⟩
  · rcases hIdShape with ⟨h1, h2⟩ | ⟨⟨w, hw, -⟩, h2⟩
    · left; exact ⟨h1, h2⟩
    · right; exact ⟨by simp [hw], h2⟩
  · intro v hv
    rcases hIdShape with ⟨h1, -⟩ | ⟨⟨w, hw, hwt⟩, -⟩
    · simp only [h1] at hv; cases hv
    · simp only [hw] at hv
      injection hv with hv
      rw [← hv]; exact hwt
  · intro v hv
    simp at hv
    rw [← hv]; exact pyStrip_idem addr
  · intro v hv
    rcases hCountyShape with h1 | ⟨w, hw, hwt⟩
    · simp only [h1] at hv; cases hv
    · simp only [hw] at hv
      injection hv with hv
      rw [← hv]; exact hwt
  · intro v hv
    simp at hv
    rw [← hv]; exact pyStrip_idem cityV
  · intro v hv
    simp at hv
    rw [← hv]; exact pyStrip_idem stateV
  · intro v hv
    simp at hv
    rw [← hv]
    by_cases h4 : z4 = []
    · rw [if_pos h4]
      exact pyStrip_idem z
    · rw [if_neg h4]
      show pyStrip (pyStrip z ++ '-' :: pyStrip z4) = pyStrip z ++ '-' :: pyStrip z4
      exact pyStrip_append_middle _ _ '-' (by decide) (pyStrip_idem z) (pyStrip_idem z4)

/-- Every record `parseBlock` produces: a name and no organization, and
trimmed street, county, city, state and zip values. -/
theorem parseBlock_shape (block : PyStr) (r : AddressRecord)
    (h : parseBlock block = .ok r) :
    r.name.isSome ∧ r.organization = none ∧
    (∀ v, r.street = some v → pyStrip v = v) ∧
    (∀ v, r.county = some v → pyStrip v = v) ∧
    (∀ v, r.city = some v → pyStrip v = v) ∧
    (∀ v, r.state = some v → pyStrip v = v) ∧
    (∀ v, r.zip = some v → pyStrip v = v) := by
  simp only [parseBlock, exceptBind_ok, exceptPure_ok] at h
  obtain ⟨nameLine, hNL, streetLine, hSL, line2, hL2, countyCsz, hCC, cityPart, hCP,
    part1, hP1, statePart, hSP, zipPart, hZP, hrec⟩ := h
  subst hrec
  have hCountyShape := txtCountyCsz_shape (pySplit block (pstr "\n")) line2 countyCsz hCC
  refine ⟨by simp, rfl, ?_, ?_, ?_, ?_, ?_⟩
  · intro v hv
    simp at hv
    rw [← hv]; exact pyStrip_idem streetLine
  · intro v hv
    rcases hCountyShape with h1 | ⟨w, hw, hwt⟩
    · simp only [h1] at hv; cases hv
    · simp only [hw] at hv
      injection hv with hv
      rw [← hv]; exact hwt
  · intro v hv
    simp at hv
    rw [← hv]; exact pyStrip_idem cityPart
  · intro v hv
    simp at hv
    rw [← hv]; exact pyStrip_idem statePart
  · intro v hv
    simp at hv
    rw [← hv]; exact pyStrip_idem zipPart

/-- Symbolic evaluation of `parseEnt` on a well-formed entity. -/
theorem parseEnt_eval (e : Ent) (nT cT : Option PyStr) (s2 s3 : Option PyStr)
    (stT cityT stateT postalT : PyStr) (ctryT : Option PyStr)
    (hNAME : e.NAME = some nT) (hCOMPANY : e.COMPANY = some cT)
    (hS2 : optStreetLine e.STREET_2 = .ok s2) (hS3 : optStreetLine e.STREET_3 = .ok s3)
    (hST : e.STREET = some (some stT)) (hCITY : e.CITY = some (some cityT))
    (hSTATE : e.STATE = some (some stateT)) (hPC : e.POSTAL_CODE = some (some postalT))
    (hCTRY : e.COUNTRY = some ctryT) :
    parseEnt e = .ok
      { name := if stripIfTruthy nT ≠ [] then some (pyStrip (stripIfTruthy nT)) else none
        organization := if stripIfTruthy nT ≠ [] then none
          else if stripIfTruthy cT ≠ [] then some (stripIfTruthy cT) else none
        street := some (pyJoin (pstr " ") (pyStrip stT :: [s2, s3].filterMap id))
        county := none
        city := some (pyStrip cityT)
        state := some (pyStrip stateT)
        zip := some ((pySplit (pyStrip postalT) (pstr " -")).headD [])
        country := match (match ctryT with
            | some s => if s = [] then none else some (pyStrip s)
            | none => none) with
          | some c => if c = [] then none else some c
          | none => none } := by
  rw [parseEnt]
  simp only [hNAME, hCOMPANY, hST, hCITY, hSTATE, hPC, hCTRY, childText, childTextStrip,
    hS2, hS3, exceptBind_ok_eval, exceptPure_eval]

/-- Locate the producing parser of any record of the final output. -/
theorem mainRecords_mem (files : List InputFile) (out : List AddressRecord)
    (r : AddressRecord) (h : mainRecords files = .ok out) (hr : r ∈ out) :
    ∃ f rs, f ∈ files ∧ parseFile f = .ok rs ∧ r ∈ rs := by
  rw [mainRecords, exceptMap_ok] at h
  obtain ⟨all, hAll, hSort⟩ := h
  rw [collectRecords, exceptMap_ok] at hAll
  obtain ⟨parts, hParts, hFlat⟩ := hAll
  have hrAll : r ∈ all := by
    have hperm := List.mergeSort_perm all recLe
    rw [hSort] at hperm
    exact hperm.mem_iff.mp hr
  rw [← hFlat] at hrAll
  rw [List.mem_flatten] at hrAll
  obtain ⟨part, hpart, hrpart⟩ := hrAll
  obtain ⟨f, hf, hpf⟩ := exMapM_ok_mem parseFile files parts hParts part hpart
  exact ⟨f, part, hf, hpf, hrpart⟩

/-! ### The claims -/

/-- C3, counterexample: the claim says an empty-but-valid file of each
supported type yields zero records with no error, but an empty
block-text file does not parse to an empty record list. -/
theorem C3_empty_txt_not_ok : parse_txt (pstr "") ≠ Except.ok [] := by decide

/-- C3, amended: empty markup and tabular inputs contribute zero
records with no error, but an empty block-text file raises IndexError,
because splitting the empty content on blank lines yields one empty
block whose second line does not exist. -/
theorem C3_empty_files :
    parse_xml [] = .ok [] ∧ parse_tsv [] = .ok [] ∧
      parse_txt (pstr "") = .error .indexError :=
  ⟨rfl, rfl, by decide⟩

/-- C6: a markup entity that is well-formed but has no COUNTRY child
makes the whole parse raise AttributeError (`ent.find` returns `None`
and the code reads `.text` on it), although the code comments and the
spec describe the country as optional. -/
theorem C6_missing_country_raises :
    parse_xml [entNoCountry] = .error .attributeError := by decide

/-- C1, counterexample: a markup entity whose NAME text is empty and
whose COMPANY text is whitespace-only produces a final output record
carrying neither a `name` nor an `organization` key. -/
theorem C1_counterexample :
    mainRecords [InputFile.xmlFile [entNoIdentity]] = .ok [entNoIdentityRec] ∧
    entNoIdentityRec.name = none ∧ entNoIdentityRec.organization = none := by
  refine ⟨?_, rfl, rfl⟩
  have h : collectRecords [InputFile.xmlFile [entNoIdentity]] = .ok [entNoIdentityRec] := by
    decide
  rw [mainRecords, h]
  simp [Except.map]

/-- C1, amended: for every record in the final output sequence, at most
one of the keys `name` and `organization` is present — never both; a
record can lack both exactly when its markup entity had no non-empty
identity text. -/
theorem C1_at_most_one_identity (files : List InputFile) (out : List AddressRecord)
    (h : mainRecords files = .ok out) :
    ∀ r ∈ out, r.name = none ∨ r.organization = none := by
  intro r hr
  obtain ⟨f, rs, hf, hpf, hrrs⟩ := mainRecords_mem files out r h hr
  cases f with
  | xmlFile ents =>
    simp only [parseFile, parse_xml] at hpf
    obtain ⟨e, he, hpe⟩ := exMapM_ok_mem parseEnt ents rs hpf r hrrs
    exact (parseEnt_shape e r hpe).1
  | tsvFile rows =>
    simp only [parseFile, parse_tsv] at hpf
    obtain ⟨row, hrow, hpr⟩ := exMapM_ok_mem parseRow rows rs hpf r hrrs
    rcases (parseRow_shape row r hpr).1 with ⟨h1, h2⟩ | ⟨h1, h2⟩
    · left; exact h1
    · right; exact h2
  | txtFile content =>
    simp only [parseFile, parse_txt] at hpf
    obtain ⟨b, hb, hpb⟩ := exMapM_ok_mem parseBlock _ rs hpf r hrrs
    right
    exact (parseBlock_shape b r hpb).2.1
  | otherFile =>
    simp only [parseFile] at hpf
    injection hpf with hpf
    rw [← hpf] at hrrs
    cases hrrs

/-- C1, witness: the amended theorem applied to one concrete run. -/
theorem C1_at_most_one_identity_witness :
    mainRecords [InputFile.txtFile txtOneRecord] = .ok [txtOneRecordRec] ∧
    (∀ r ∈ [txtOneRecordRec], r.name = none ∨ r.organization = none) := by
  have h : mainRecords [InputFile.txtFile txtOneRecord] = .ok [txtOneRecordRec] := by
    have hc : collectRecords [InputFile.txtFile txtOneRecord] = .ok [txtOneRecordRec] := by
      decide
    rw [mainRecords, hc]
    simp [Except.map]
  exact ⟨h, C1_at_most_one_identity _ _ h⟩

/-- C2: the final output is the concatenated record sequence sorted
ascending by the string comparison of the zip key (a missing zip
sorting as the string 99999), and the sort is stable: for every key
value, the records carrying it appear in the same order as in the
concatenation. -/
theorem C2_sorted_stable (files : List InputFile) (rs out : List AddressRecord)
    (hc : collectRecords files = .ok rs) (hm : mainRecords files = .ok out) :
    List.Pairwise (fun a b => pyStrLe (sortKey a) (sortKey b) = true) out ∧
    ∀ z : PyStr, out.filter (fun r => sortKey r == z) =
      rs.filter (fun r => sortKey r == z) := by
  rw [mainRecords, hc] at hm
  simp only [Except.map] at hm
  injection hm with hm
  rw [← hm]
  constructor
  · exact List.sorted_mergeSort recLe_trans recLe_total rs
  · intro z
    exact mergeSort_filter_key rs z

/-- C2, witness: two single-record files whose zips arrive out of
order; the sorted output swaps them. -/
theorem C2_sorted_stable_witness :
    collectRecords [InputFile.txtFile txtOneRecord, InputFile.txtFile txtSecondRecord] =
      .ok [txtOneRecordRec, txtSecondRecordRec] ∧
    mainRecords [InputFile.txtFile txtOneRecord, InputFile.txtFile txtSecondRecord] =
      .ok [txtSecondRecordRec, txtOneRecordRec] ∧
    (List.Pairwise (fun a b => pyStrLe (sortKey a) (sortKey b) = true)
      [txtSecondRecordRec, txtOneRecordRec] ∧
     ∀ z : PyStr, [txtSecondRecordRec, txtOneRecordRec].filter (fun r => sortKey r == z) =
       [txtOneRecordRec, txtSecondRecordRec].filter (fun r => sortKey r == z)) := by
  have hc : collectRecords [InputFile.txtFile txtOneRecord, InputFile.txtFile txtSecondRecord] =
      .ok [txtOneRecordRec, txtSecondRecordRec] := by decide
  have hm : mainRecords [InputFile.txtFile txtOneRecord, InputFile.txtFile txtSecondRecord] =
      .ok [txtSecondRecordRec, txtOneRecordRec] := by
    rw [mainRecords, hc]
    simp [Except.map, List.mergeSort, List.merge]
    decide
  exact ⟨hc, hm, C2_sorted_stable _ _ _ hc hm⟩

/-- C4, counterexample: the tabular parser stores a non-`N/A`
organization cell verbatim, so its surrounding whitespace survives on
the record. -/
theorem C4_counterexample :
    parse_tsv [rowUntrimmedOrg] = .ok [rowUntrimmedOrgRec] ∧
    rowUntrimmedOrgRec.organization = some (pstr " Acme Corp ") ∧
    pyStrip (pstr " Acme Corp ") ≠ pstr " Acme Corp " := by decide

/-- C4, amended: the parsers trim all stored field values except two:
the tabular `organization` is stored verbatim, and a block-text `name`
taken from a comma-containing identity line only has commas removed.
Concretely: markup records have trimmed name, organization, city,
state and country; tabular records have trimmed name, street, county,
city, state and zip; block-text records have trimmed street, county,
city, state and zip. -/
theorem C4_trimmed_fields :
    (∀ (ents : List Ent) (rs : List AddressRecord), parse_xml ents = .ok rs →
      ∀ r ∈ rs, ∀ v : PyStr,
        (r.name = some v → pyStrip v = v) ∧ (r.organization = some v → pyStrip v = v) ∧
        (r.city = some v → pyStrip v = v) ∧ (r.state = some v → pyStrip v = v) ∧
        (r.country = some v → pyStrip v = v)) ∧
    (∀ (rows : List Row) (rs : List AddressRecord), parse_tsv rows = .ok rs →
      ∀ r ∈ rs, ∀ v : PyStr,
        (r.name = some v → pyStrip v = v) ∧ (r.street = some v → pyStrip v = v) ∧
        (r.county = some v → pyStrip v = v) ∧ (r.city = some v → pyStrip v = v) ∧
        (r.state = some v → pyStrip v = v) ∧ (r.zip = some v → pyStrip v = v)) ∧
    (∀ (content : PyStr) (rs : List AddressRecord), parse_txt content = .ok rs →
      ∀ r ∈ rs, ∀ v : PyStr,
        (r.street = some v → pyStrip v = v) ∧ (r.county = some v → pyStrip v = v) ∧
        (r.city = some v → pyStrip v = v) ∧ (r.state = some v → pyStrip v = v) ∧
        (r.zip = some v → pyStrip v = v)) := by
  refine ⟨?_, ?_, ?_⟩
  · intro ents rs h r hr v
    obtain ⟨e, he, hpe⟩ := exMapM_ok_mem parseEnt ents rs h r hr
    obtain ⟨-, h1, h2, h3, h4, h5, -⟩ := parseEnt_shape e r hpe
    exact ⟨h1 v, h2 v, h3 v, h4 v, h5 v⟩
  · intro rows rs h r hr v
    obtain ⟨row, hrow, hpr⟩ := exMapM_ok_mem parseRow rows rs h r hr
    obtain ⟨-, h1, h2, h3, h4, h5, h6⟩ := parseRow_shape row r hpr
    exact ⟨h1 v, h2 v, h3 v, h4 v, h5 v, h6 v⟩
  · intro content rs h r hr v
    obtain ⟨b, hb, hpb⟩ := exMapM_ok_mem parseBlock _ rs h r hr
    obtain ⟨-, -, h1, h2, h3, h4, h5⟩ := parseBlock_shape b r hpb
    exact ⟨h1 v, h2 v, h3 v, h4 v, h5 v⟩

/-- C4, witness: the tabular part of the amended theorem applied to one
concrete row that fills every optional field. -/
theorem C4_trimmed_fields_witness :
    parse_tsv [rowWithCounty] = .ok [rowWithCountyRec] ∧
    (∀ r ∈ [rowWithCountyRec], ∀ v : PyStr,
      (r.name = some v → pyStrip v = v) ∧ (r.street = some v → pyStrip v = v) ∧
      (r.county = some v → pyStrip v = v) ∧ (r.city = some v → pyStrip v = v) ∧
      (r.state = some v → pyStrip v = v) ∧ (r.zip = some v → pyStrip v = v)) := by
  have h : parse_tsv [rowWithCounty] = .ok [rowWithCountyRec] := by decide
  exact ⟨h, C4_trimmed_fields.2.1 [rowWithCounty] [rowWithCountyRec] h⟩

/-- C5, counterexample: with two spaces between state and zip, the
stored zip is the empty string, not the token after the spaces, because
Python `split(' ')` keeps empty chunks between consecutive spaces. -/
theorem C5_counterexample :
    parse_txt cexDoubleSpace = .ok [cexDoubleSpaceRec] ∧
    cexDoubleSpaceRec.zip = some [] ∧
    cexDoubleSpaceRec.zip ≠ some (pstr "77555") := by decide

/-- C5, amended: after choosing the city/state/zip line, split on comma
gives the trimmed first part as `city`; the trimmed second part is then
split on the single space character (runs of whitespace are not
collapsed), and `state` and `zip` are the trimmed elements at positions
0 and 1 of that split — so a run of two spaces yields an empty `zip`. -/
theorem C5_csz_single_space_split (content b l0 l1 l2 p0 p1 s0 s1 : PyStr)
    (restCsz restSz : List PyStr)
    (hb : pySplit (pyStrip content) (pstr "\n\n") = [b])
    (hl : pySplit b (pstr "\n") = [l0, l1, l2])
    (hcounty : pyContains (pstr "COUNTY") l2 = false)
    (hcsz : pySplit l2 (pstr ",") = p0 :: p1 :: restCsz)
    (hsz : pySplit (pyStrip p1) (pstr " ") = s0 :: s1 :: restSz) :
    ∃ r, parse_txt content = .ok [r] ∧ r.city = some (pyStrip p0) ∧
      r.state = some (pyStrip s0) ∧ r.zip = some (pyStrip s1) := by
  have hcc : txtCountyCsz [l0, l1, l2] l2 = .ok (none, p0 :: p1 :: restCsz) := by
    rw [txtCountyCsz, if_neg (by simp [hcounty]), hcsz]
    rfl
  have hpb : parseBlock b = .ok
      { name := some (if pyContains (pstr ",") l0 then pyReplace l0 (pstr ",") []
          else pyStrip l0)
        street := some (pyStrip l1)
        county := none
        city := some (pyStrip p0)
        state := some (pyStrip s0)
        zip := some (pyStrip s1) } := by
    rw [parseBlock]
    simp only [hl, pyIndex, List.get?, exceptBind_ok_eval, hcc, hsz, exceptPure_eval]
  rw [parse_txt, hb]
  exact ⟨_, exMapM_singleton _ _ _ hpb, rfl, rfl, rfl⟩

/-- C5, witness: the amended theorem applied to the double-space block;
the zip comes out as the empty string. -/
theorem C5_csz_single_space_split_witness :
    pySplit (pyStrip cexDoubleSpace) (pstr "\n\n") = [cexDoubleSpace] ∧
    (∃ r, parse_txt cexDoubleSpace = .ok [r] ∧
      r.city = some (pyStrip (pstr "Anytown")) ∧
      r.state = some (pyStrip (pstr "TX")) ∧ r.zip = some (pyStrip [])) :=
  ⟨by decide,
   C5_csz_single_space_split cexDoubleSpace cexDoubleSpace (pstr "Jane Doe")
     (pstr "123 Main St") (pstr "Anytown, TX  77555") (pstr "Anytown")
     (pstr " TX  77555") (pstr "TX") [] [] [pstr "77555"]
     (by decide) (by decide) (by decide) (by decide) (by decide)⟩

/-- C7: for a tabular row providing every column, the record parses and
its zip is the trimmed zip cell, a hyphen, and the trimmed zip4 cell
when zip4 is non-empty, and the trimmed zip cell alone when zip4 is
empty. -/
theorem C7_tsv_zip (row : Row) (org fV mV lV addr ctyV cityV stV z4 z : PyStr)
    (hOrg : List.lookup "organization" row = some org)
    (hf : List.lookup "first" row = some fV)
    (hm : List.lookup "middle" row = some mV)
    (hl : List.lookup "last" row = some lV)
    (hA : List.lookup "address" row = some addr)
    (hCty : List.lookup "county" row = some ctyV)
    (hCity : List.lookup "city" row = some cityV)
    (hSt : List.lookup "state" row = some stV)
    (hZ4 : List.lookup "zip4" row = some z4)
    (hZ : List.lookup "zip" row = some z) :
    ∃ r, parse_tsv [row] = .ok [r] ∧
      (z4 ≠ [] → r.zip = some (pyStrip z ++ pstr "-" ++ pyStrip z4)) ∧
      (z4 = [] → r.zip = some (pyStrip z)) := by
  obtain ⟨idF, hIdF⟩ : ∃ idF, tsvIdentity row org = .ok idF := by
    rw [tsvIdentity]
    by_cases hna : org = pstr "N/A"
    · rw [if_neg (by simp [hna])]
      refine ⟨(some (pyJoin (pstr " ")
        (([pyStrip fV, pyStrip mV, pyStrip lV]).filter (!·.isEmpty))), none), ?_⟩
      simp only [rowItem, hf, hm, hl, exceptBind_ok_eval, exceptPure_eval]
    · rw [if_pos (by simp [hna])]
      exact ⟨(none, some org), rfl⟩
  obtain ⟨cf, hCf⟩ : ∃ cf, tsvCounty row = .ok cf := by
    rw [tsvCounty]
    by_cases he2 : List.lookup "county" row = some []
    · rw [if_neg (by simp [he2])]
      exact ⟨none, rfl⟩
    · rw [if_pos (by simp [he2])]
      refine ⟨some (pyStrip ctyV), ?_⟩
      simp only [rowItem, hCty, exceptBind_ok_eval, exceptPure_eval]
  refine ⟨{ name := idF.1
            organization := idF.2
            street := some (pyStrip addr)
            county := cf
            city := some (pyStrip cityV)
            state := some (pyStrip stV)
            zip := some (if z4 ≠ [] then pyStrip z ++ pstr "-" ++ pyStrip z4
              else pyStrip z) }, ?_, ?_, ?_⟩
  · rw [parse_tsv]
    apply exMapM_singleton
    rw [parseRow]
    simp only [rowItem, hOrg, hA, hCity, hSt, hZ4, hZ, hIdF, hCf,
      exceptBind_ok_eval, exceptPure_eval]
  · intro h4
    show some (if z4 ≠ [] then pyStrip z ++ pstr "-" ++ pyStrip z4 else pyStrip z) =
      some (pyStrip z ++ pstr "-" ++ pyStrip z4)
    rw [if_pos h4]
  · intro h4
    show some (if z4 ≠ [] then pyStrip z ++ pstr "-" ++ pyStrip z4 else pyStrip z) =
      some (pyStrip z)
    rw [if_neg (by simp [h4])]

/-- C7, witness: the spec example `zip = 94105`, `zip4 = 1234` yields
`94105-1234`. -/
theorem C7_tsv_zip_witness :
    List.lookup "zip4" row94105 = some (pstr "1234") ∧
    (∃ r, parse_tsv [row94105] = .ok [r] ∧
      (pstr "1234" ≠ [] →
        r.zip = some (pyStrip (pstr "94105") ++ pstr "-" ++ pyStrip (pstr "1234"))) ∧
      (pstr "1234" = [] → r.zip = some (pyStrip (pstr "94105")))) ∧
    pyStrip (pstr "94105") ++ pstr "-" ++ pyStrip (pstr "1234") = pstr "94105-1234" :=
  ⟨by decide,
   C7_tsv_zip row94105 (pstr "N/A") (pstr "Ann") (pstr "") (pstr "Lee")
     (pstr "5 Elm St") (pstr "Washoe") (pstr "SF") (pstr "CA") (pstr "1234")
     (pstr "94105") (by decide) (by decide) (by decide) (by decide) (by decide)
     (by decide) (by decide) (by decide) (by decide) (by decide),
   by decide⟩

/-- C8: for every well-formed markup entity, the zip of the record is the
trimmed POSTAL_CODE text truncated at the first occurrence of the
space-hyphen sequence, everything from that sequence onward dropped. -/
theorem C8_markup_zip_truncation (e : Ent) (nT cT : Option PyStr) (s2 s3 : Option PyStr)
    (stT cityT stateT postalT : PyStr) (ctryT : Option PyStr)
    (hNAME : e.NAME = some nT) (hCOMPANY : e.COMPANY = some cT)
    (hS2 : optStreetLine e.STREET_2 = .ok s2) (hS3 : optStreetLine e.STREET_3 = .ok s3)
    (hST : e.STREET = some (some stT)) (hCITY : e.CITY = some (some cityT))
    (hSTATE : e.STATE = some (some stateT)) (hPC : e.POSTAL_CODE = some (some postalT))
    (hCTRY : e.COUNTRY = some ctryT) :
    ∃ r, parse_xml [e] = .ok [r] ∧
      r.zip = some (beforeFirst (pyStrip postalT) (pstr " -")) := by
  rw [parse_xml]
  refine ⟨_, exMapM_singleton _ _ _ (parseEnt_eval e nT cT s2 s3 stT cityT stateT
    postalT ctryT hNAME hCOMPANY hS2 hS3 hST hCITY hSTATE hPC hCTRY), ?_⟩
  show some ((pySplit (pyStrip postalT) (pstr " -")).headD []) = _
  rw [pySplit_head _ _ (by decide)]

/-- C8, witness: postal code text `12345 -6789` yields zip `12345`. -/
theorem C8_markup_zip_truncation_witness :
    (∃ r, parse_xml [entZipPlus] = .ok [r] ∧
      r.zip = some (beforeFirst (pyStrip (pstr "12345 -6789")) (pstr " -"))) ∧
    beforeFirst (pyStrip (pstr "12345 -6789")) (pstr " -") = pstr "12345" :=
  ⟨C8_markup_zip_truncation entZipPlus (some (pstr "Bo Ax")) (some (pstr ""))
     none none (pstr "1 Main") (pstr "Rye") (pstr "NY") (pstr "12345 -6789") none
     rfl rfl rfl rfl rfl rfl rfl rfl rfl,
   by decide⟩

/-- C9: a well-formed markup entity whose NAME and COMPANY children are
present but whose texts trim to the empty string parses without error
into a record carrying neither a `name` nor an `organization` key. -/
theorem C9_empty_identity_record (e : Ent) (nT cT : Option PyStr) (s2 s3 : Option PyStr)
    (stT cityT stateT postalT : PyStr) (ctryT : Option PyStr)
    (hNAME : e.NAME = some nT) (hCOMPANY : e.COMPANY = some cT)
    (hnEmpty : ∀ s, nT = some s → pyStrip s = [])
    (hcEmpty : ∀ s, cT = some s → pyStrip s = [])
    (hS2 : optStreetLine e.STREET_2 = .ok s2) (hS3 : optStreetLine e.STREET_3 = .ok s3)
    (hST : e.STREET = some (some stT)) (hCITY : e.CITY = some (some cityT))
    (hSTATE : e.STATE = some (some stateT)) (hPC : e.POSTAL_CODE = some (some postalT))
    (hCTRY : e.COUNTRY = some ctryT) :
    ∃ r, parse_xml [e] = .ok [r] ∧ r.name = none ∧ r.organization = none := by
  have hn : stripIfTruthy nT = [] := by
    match nT with
    | none => rfl
    | some s =>
      rw [stripIfTruthy]
      by_cases hs : s = []
      · rw [if_pos hs]
      · rw [if_neg hs]
        exact hnEmpty s rfl
  have hc : stripIfTruthy cT = [] := by
    match cT with
    | none => rfl
    | some s =>
      rw [stripIfTruthy]
      by_cases hs : s = []
      · rw [if_pos hs]
      · rw [if_neg hs]
        exact hcEmpty s rfl
  rw [parse_xml]
  refine ⟨_, exMapM_singleton _ _ _ (parseEnt_eval e nT cT s2 s3 stT cityT stateT
    postalT ctryT hNAME hCOMPANY hS2 hS3 hST hCITY hSTATE hPC hCTRY), ?_, ?_⟩
  · show (if stripIfTruthy nT ≠ [] then some (pyStrip (stripIfTruthy nT)) else none) = none
    rw [if_neg (by simp [hn])]
  · show (if stripIfTruthy nT ≠ [] then none
      else if stripIfTruthy cT ≠ [] then some (stripIfTruthy cT) else none) = none
    rw [if_neg (by simp [hn]), if_neg (by simp [hc])]

/-- C9, witness: the empty-NAME, whitespace-COMPANY entity parses into
an identity-less record. -/
theorem C9_empty_identity_record_witness :
    ∃ r, parse_xml [entNoIdentity] = .ok [r] ∧ r.name = none ∧ r.organization = none :=
  C9_empty_identity_record entNoIdentity (some (pstr "")) (some (pstr " "))
    none none (pstr "9 Pine Rd") (pstr "Plano") (pstr "TX") (pstr "75023") none
    rfl rfl
    (fun s hs => by injection hs with h; rw [← h]; rfl)
    (fun s hs => by injection hs with h; rw [← h]; rfl)
    rfl rfl rfl rfl rfl rfl rfl

/-- A row with no `county` column makes the county lookup a KeyError. -/
theorem tsvCounty_error (row : Row) (h : List.lookup "county" row = none) :
    tsvCounty row = .error (.keyError "county") := by
  rw [tsvCounty, if_pos (by simp [h])]
  simp only [rowItem, h]
  rfl

/-- C10: the tabular parser requires a `county` column: a first data
row with no `county` key makes the whole parse fail, and when the
column is present the record omits `county` exactly when the cell is
the empty string. -/
theorem C10_county_required :
    (∀ (row : Row) (rest : List Row), List.lookup "county" row = none →
      ∀ rs, parse_tsv (row :: rest) ≠ .ok rs) ∧
    (∀ (row : Row) (v : PyStr) (r : AddressRecord),
      List.lookup "county" row = some v → parse_tsv [row] = .ok [r] →
      (r.county = none ↔ v = [])) := by
  constructor
  · intro row rest hnone rs hok
    rw [parse_tsv] at hok
    simp only [exMapM] at hok
    rw [exceptBind_ok] at hok
    obtain ⟨r0, hr0, -⟩ := hok
    simp only [parseRow, exceptBind_ok, exceptPure_ok] at hr0
    obtain ⟨org, -, idF, -, addr, -, cf, hcf, -⟩ := hr0
    rw [tsvCounty_error row hnone] at hcf
    cases hcf
  · intro row v r hv hok
    rw [parse_tsv] at hok
    simp only [exMapM] at hok
    rw [exceptBind_ok] at hok
    obtain ⟨r0, hr0, hrest⟩ := hok
    have hr0r : r0 = r := by
      simp only [exceptBind_ok_eval, exceptPure_ok] at hrest
      injection hrest with h1 h2
    subst hr0r
    simp only [parseRow, exceptBind_ok, exceptPure_ok] at hr0
    obtain ⟨org, hOrg, idF, hIdF, addr, hAddr, cf, hcf, cityV, hCity, stateV, hState,
      z4, hZ4, z, hZ, hrec⟩ := hr0
    by_cases hvnil : v = []
    · rw [tsvCounty, if_neg (by simp [hv, hvnil])] at hcf
      rw [exceptPure_ok] at hcf
      rw [← hrec]
      show cf = none ↔ v = []
      rw [← hcf]
      simp [hvnil]
    · rw [tsvCounty, if_pos (by simp [hv, hvnil])] at hcf
      simp only [rowItem, hv, exceptBind_ok_eval, exceptPure_ok] at hcf
      rw [← hrec]
      show cf = none ↔ v = []
      rw [← hcf]
      simp [hvnil]

/-- C10, witness: a row with no county column fails to parse; a row
with county `Washoe` keeps the key. -/
theorem C10_county_required_witness :
    (List.lookup "county" rowNoCounty = none ∧
      parse_tsv [rowNoCounty] = .error (.keyError "county") ∧
      parse_tsv [rowNoCounty] ≠ .ok []) ∧
    (List.lookup "county" rowWithCounty = some (pstr "Washoe") ∧
      parse_tsv [rowWithCounty] = .ok [rowWithCountyRec] ∧
      (rowWithCountyRec.county = none ↔ pstr "Washoe" = [])) :=
  ⟨⟨by decide, by decide, C10_county_required.1 rowNoCounty [] (by decide) []⟩,
   ⟨by decide, by decide,
    C10_county_required.2 rowWithCounty (pstr "Washoe") rowWithCountyRec
      (by decide) (by decide)⟩⟩

end AddrProg
